import Mathlib

/-!
Shallow embedding of the Fan-Out Coordinator
(`src/discord/monitor/fanout-coordinator.ts`): a per-channel scheduler that
serializes multiple chat agents' reactions to shared messages.  JS `Map`s are
modelled as association lists, `setTimeout` handles as numeric timer ids
recorded in an `armedTimers` set, the externally supplied predicate
`isSilentReplyText` as an abstract `isSilent : String → Bool` parameter, the
awaited per-agent resolver as an `oracle : String → Option String`
(`none` models the 45 s timeout resolving with `undefined`), and
`Math.random` as an injected stream of Fisher–Yates indices.
-/

namespace Fanout

/-- Association-list lookup, modelling `Map.get`. -/
def alookup {β : Type} : List (String × β) → String → Option β
  | [], _ => none
  | (k, v) :: rest, key => if k = key then some v else alookup rest key

/-- Association-list update-or-append, modelling `Map.set`. -/
def aset {β : Type} : List (String × β) → String → β → List (String × β)
  | [], key, v => [(key, v)]
  | (k, w) :: rest, key, v =>
    if k = key then (key, v) :: rest else (k, w) :: aset rest key v

/-- JS `Array.prototype.indexOf` on a list of strings: first index, or `-1`. -/
def jsIndexOf : List String → String → Int
  | [], _ => -1
  | x :: xs, s =>
    if x = s then 0
    else
      let r := jsIndexOf xs s
      if r = -1 then -1 else r + 1

/-- One swap `[arr[i], arr[j]] = [arr[j], arr[i]]` of `shuffleArray`;
out-of-range indices leave the list unchanged. -/
def swapList {α : Type} (l : List α) (i j : Nat) : List α :=
  match l[i]?, l[j]? with
  | some a, some b => (l.set i b).set j a
  | _, _ => l

/-- Fisher–Yates descent of `shuffleArray`: `i` counts down from
`length - 1`; `rand i % (i + 1)` models `Math.floor(Math.random() * (i + 1))`. -/
def shuffleFrom {α : Type} (rand : Nat → Nat) : Nat → List α → List α
  | 0, l => l
  | i + 1, l => shuffleFrom rand i (swapList l (i + 1) (rand (i + 1) % (i + 2)))

/-- The source's `shuffleArray`, parameterized by the injected randomness. -/
def shuffleArray {α : Type} (rand : Nat → Nat) (l : List α) : List α :=
  shuffleFrom rand (l.length - 1) l

/-- The source's `DEFAULT_MAX_ROUNDS`. -/
def DEFAULT_MAX_ROUNDS : Nat := 20

/-- The slice of `DiscordMessagePreflightContext` the coordinator reads or
writes: `messageText`, `isFanOutBotMessage`, and the two hidden fields
`_fanOutRound` / `_fanOutAccumulatedResponses` (absent = `undefined`). -/
structure Ctx where
  messageText : Option String
  isFanOutBotMessage : Bool
  fanOutRound : Option Nat
  fanOutAccumulated : Option (List String)
deriving DecidableEq

/-- The source's `AgentRegistration`; the `processMessage` closure is
represented by an opaque identity tag `procId`. -/
structure AgentRegistration where
  accountId : String
  botUserId : String
  ctx : Ctx
  procId : Nat
  skipFirstRound : Bool
deriving DecidableEq

/-- The source's `ConversationMessage`. -/
structure ConversationMessage where
  agentId : String
  content : String
  index : Int
deriving DecidableEq

/-- The `conversation` component of `ChannelState`: log, per-agent
watermarks, and the next index to assign. -/
structure Conversation where
  messages : List ConversationMessage
  watermarks : List (String × Int)
  nextIndex : Int
deriving DecidableEq

/-- The source's `RoundResult`. -/
structure RoundResult where
  accountId : String
  botUserId : String
  responded : Bool
  responseText : Option String
  skipped : Bool
deriving DecidableEq

/-- The source's `PendingRound`; `collectionTimer` holds a timer id. -/
structure PendingRound where
  triggerMessageId : String
  triggerAccountId : Option String
  registrations : List AgentRegistration
  collectionTimer : Option Nat
  mentionedBotIds : List String
deriving DecidableEq

/-- The source's `ChannelState`; `responseCallbacks` keeps only the keyed
accountIds (the resolver closures are modelled by the response oracle). -/
structure ChannelState where
  currentRound : Nat
  isProcessing : Bool
  pendingRound : Option PendingRound
  previousRoundResponders : List String
  roundLimit : Nat
  responseCallbacks : List String
  conversation : Conversation
deriving DecidableEq

/-- Watermark read `conv.watermarks.get(accountId) ?? -1`. -/
def wmLookup (conv : Conversation) (accountId : String) : Int :=
  (alookup conv.watermarks accountId).getD (-1)

/-- Tail read `conv.messages.length > 0 ? conv.messages[len-1].index : -1`. -/
def tailIndex (conv : Conversation) : Int :=
  match conv.messages.getLast? with
  | some m => m.index
  | none => -1

/-- Truthiness of `Boolean(responseText && !isSilentReplyText(responseText))`:
`undefined` and the empty string are falsy. -/
def respondedOf (isSilent : String → Bool) (responseText : Option String) : Bool :=
  match responseText with
  | none => false
  | some t => !(t == "") && !(isSilent t)

/-- The source's `buildAccumulatedContext`: spread-copy the ctx and, unless
the accumulated list is empty and the message came from a fan-out bot,
stash `_fanOutRound` and `_fanOutAccumulatedResponses` on the copy. -/
def buildAccumulatedContext (ctx : Ctx) (accumulatedResponses : List String)
    (roundNumber : Nat) : Ctx :=
  if accumulatedResponses.length = 0 then
    if !ctx.isFanOutBotMessage then
      { ctx with fanOutRound := some roundNumber, fanOutAccumulated := some [] }
    else ctx
  else
    { ctx with fanOutRound := some roundNumber,
               fanOutAccumulated := some accumulatedResponses }

/-- The source's `getFanOutRoundInfo`: read back the stashed round metadata,
or `null` when `_fanOutRound` is `undefined`. -/
def getFanOutRoundInfo (ctx : Ctx) : Option (Nat × List String) :=
  match ctx.fanOutRound with
  | none => none
  | some round => some (round, ctx.fanOutAccumulated.getD [])

/-- The source's `addRegistration`: push unless the `accountId` is already
registered (first registration wins). -/
def addRegistration (pending : PendingRound) (reg : AgentRegistration) : PendingRound :=
  if pending.registrations.any (fun r => r.accountId == reg.accountId) then pending
  else { pending with registrations := pending.registrations ++ [reg] }

/-- The source's `orderAgents`: round 1 puts mentioned agents first sorted by
mention position (JS `sort` is stable, modelled by `List.insertionSort`) with
the rest shuffled; chained rounds put previous responders first, both groups
shuffled.  `rand k` is the randomness stream of the `k`-th `shuffleArray`
call. -/
def orderAgents (rand : Nat → Nat → Nat) (registrations : List AgentRegistration)
    (mentionedBotIds : List String) (previousResponders : List String)
    (isFirstRound : Bool) : List AgentRegistration :=
  if isFirstRound then
    let mentioned := registrations.filter (fun reg => mentionedBotIds.contains reg.botUserId)
    let rest := registrations.filter (fun reg => !(mentionedBotIds.contains reg.botUserId))
    let mentionedSorted := List.insertionSort
      (fun a b => jsIndexOf mentionedBotIds a.botUserId ≤ jsIndexOf mentionedBotIds b.botUserId)
      mentioned
    mentionedSorted ++ shuffleArray (rand 0) rest
  else
    let responders := registrations.filter (fun reg => previousResponders.contains reg.accountId)
    let rest := registrations.filter (fun reg => !(previousResponders.contains reg.accountId))
    shuffleArray (rand 0) responders ++ shuffleArray (rand 1) rest

/-- Visibility test of `executeRound` step 3: some message index lies above
the agent's watermark. -/
def hasNewMessages (conv : Conversation) (reg : AgentRegistration) : Bool :=
  conv.messages.any (fun m => wmLookup conv reg.accountId < m.index)

/-- Round-1 conversation reset of `executeRound`: clear the log and
watermarks and append the trigger message
(`registrations[0]?.ctx?.messageText ?? "(trigger message)"`) at index 0. -/
def initialConv (pending : PendingRound) : Conversation :=
  let triggerContent :=
    match pending.registrations.head? with
    | some r => r.ctx.messageText.getD "(trigger message)"
    | none => "(trigger message)"
  { messages := [{ agentId := "human", content := triggerContent, index := 0 }],
    watermarks := [], nextIndex := 1 }

/-- Record of one invoked agent's turn, for stating per-turn properties:
the registration, the round number, the watermark read at entry, the
accumulated-response strings, the augmented ctx handed to `processMessage`,
the resolver outcome, and the conversation before/after the turn. -/
structure TurnRecord where
  reg : AgentRegistration
  roundNo : Nat
  watermarkBefore : Int
  accumulated : List String
  ctxGiven : Ctx
  responseText : Option String
  responded : Bool
  convBefore : Conversation
  convAfter : Conversation
deriving DecidableEq

/-- One non-skipped agent turn of `executeRound` step 5: compute the unseen
messages and their `"[agentId]: content"` view, augment the ctx, advance the
watermark to the tail before invoking, await the resolver (the oracle), and
on a non-silent non-empty response append it and advance the watermark to
the appended index. -/
def runTurn (isSilent : String → Bool) (oracle : String → Option String) (roundNo : Nat)
    (conv : Conversation) (reg : AgentRegistration) :
    Conversation × RoundResult × TurnRecord :=
  let watermark := wmLookup conv reg.accountId
  let newMessages := conv.messages.filter (fun m => watermark < m.index)
  let accumulatedResponses :=
    (newMessages.filter (fun m => !(m.agentId == "human"))).map
      (fun m => "[" ++ m.agentId ++ "]: " ++ m.content)
  let modifiedCtx := buildAccumulatedContext reg.ctx accumulatedResponses roundNo
  let conv1 : Conversation :=
    { conv with watermarks := aset conv.watermarks reg.accountId (tailIndex conv) }
  let responseText := oracle reg.accountId
  let responded := respondedOf isSilent responseText
  let conv2 : Conversation :=
    if responded then
      match responseText with
      | some t =>
        let convP : Conversation :=
          { conv1 with
            messages := conv1.messages ++
              [{ agentId := reg.accountId, content := t, index := conv1.nextIndex }],
            nextIndex := conv1.nextIndex + 1 }
        { convP with watermarks := aset convP.watermarks reg.accountId (tailIndex convP) }
      | none => conv1
    else conv1
  (conv2,
   { accountId := reg.accountId, botUserId := reg.botUserId, responded := responded,
     responseText := if responded then responseText else none, skipped := false },
   { reg := reg, roundNo := roundNo, watermarkBefore := watermark,
     accumulated := accumulatedResponses, ctxGiven := modifiedCtx,
     responseText := responseText, responded := responded,
     convBefore := conv, convAfter := conv2 })

/-- Serial loop of `executeRound` step 5 over the ordered agents; a trigger
agent is skipped in round 1 with a `skipped` result and no turn. -/
def runTurns (isSilent : String → Bool) (oracle : String → Option String) (roundNo : Nat) :
    Conversation → List AgentRegistration →
    Conversation × List RoundResult × List TurnRecord
  | conv, [] => (conv, [], [])
  | conv, reg :: rest =>
    if reg.skipFirstRound && roundNo == 1 then
      let res : RoundResult :=
        { accountId := reg.accountId, botUserId := reg.botUserId,
          responded := false, responseText := none, skipped := true }
      let r := runTurns isSilent oracle roundNo conv rest
      (r.1, res :: r.2.1, r.2.2)
    else
      let t := runTurn isSilent oracle roundNo conv reg
      let r := runTurns isSilent oracle roundNo t.1 rest
      (r.1, t.2.1 :: r.2.1, t.2.2 :: r.2.2)

/-- The source's `executeRound` for one round: bail out if already
processing, otherwise claim the channel, bump the round counter, initialize
the log on round 1, partition agents by unseen messages, order and serially
invoke them, and record the responders.  Returns the updated state, the
round results, and the per-turn trace. -/
def executeRound (isSilent : String → Bool) (rand : Nat → Nat → Nat)
    (oracle : String → Option String) (state : ChannelState) (pending : PendingRound) :
    ChannelState × List RoundResult × List TurnRecord :=
  if state.isProcessing then (state, [], [])
  else
    let roundNo := state.currentRound + 1
    let isFirstRound := roundNo == 1
    let conv1 := if isFirstRound then initialConv pending else state.conversation
    let agentsWithNewMessages :=
      pending.registrations.filter (fun reg => hasNewMessages conv1 reg)
    let agentsWithoutNewMessages :=
      pending.registrations.filter (fun reg => !(hasNewMessages conv1 reg))
    let ordered := orderAgents rand agentsWithNewMessages pending.mentionedBotIds
      state.previousRoundResponders isFirstRound
    let skippedResults := agentsWithoutNewMessages.map (fun reg =>
      ({ accountId := reg.accountId, botUserId := reg.botUserId, responded := false,
         responseText := none, skipped := true } : RoundResult))
    let rt := runTurns isSilent oracle roundNo conv1 ordered
    let results := skippedResults ++ rt.2.1
    let prr := (results.filter (fun r => r.responded)).map (fun r => r.accountId)
    ({ state with
        currentRound := roundNo
        isProcessing := false
        pendingRound := none
        previousRoundResponders := prr
        conversation := rt.1 },
     results, rt.2.2)

/-- The chained `PendingRound` synthesized by `scheduleChainedRound`: same
trigger and registrations, no collection timer. -/
def chainedPendingOf (pending : PendingRound) : PendingRound :=
  { triggerMessageId := pending.triggerMessageId,
    triggerAccountId := pending.triggerAccountId,
    registrations := pending.registrations,
    collectionTimer := none,
    mentionedBotIds := pending.mentionedBotIds }

/-- Termination reset shared by every conversation-ending path of
`executeRound` / `scheduleChainedRound`. -/
def endConversation (state : ChannelState) : ChannelState :=
  { state with currentRound := 0, previousRoundResponders := [] }

/-- Trace of one executed round. -/
structure RoundTrace where
  roundNo : Nat
  results : List RoundResult
  turns : List TurnRecord
deriving DecidableEq

/-- Round chaining of `executeRound` lines 464–489 plus
`scheduleChainedRound`, for one conversation during which no new Discord
message arrives (`state.pendingRound` stays `null`): while some agent
responded and `currentRound < roundLimit` and some registered agent still
has unseen messages, run a chained round; otherwise reset `currentRound`
and `previousRoundResponders`.  `rands k` / `oracles k` are the randomness
stream and response oracle of round `k`. -/
def runConversation (isSilent : String → Bool) (rands : Nat → Nat → Nat → Nat)
    (oracles : Nat → String → Option String) (state : ChannelState)
    (pending : PendingRound) : ChannelState × List RoundTrace :=
  let roundNo := state.currentRound + 1
  let er := executeRound isSilent (rands roundNo) (oracles roundNo) state pending
  let s1 := er.1
  let tr : RoundTrace := { roundNo := roundNo, results := er.2.1, turns := er.2.2 }
  if h : er.2.1.any (fun r => r.responded) = true ∧ s1.currentRound < s1.roundLimit then
    if pending.registrations.any (fun reg => hasNewMessages s1.conversation reg) then
      let r := runConversation isSilent rands oracles s1 (chainedPendingOf pending)
      (r.1, tr :: r.2)
    else
      (endConversation s1, [tr])
  else
    (endConversation s1, [tr])
termination_by state.roundLimit - state.currentRound
decreasing_by
  all_goals
    rcases hp : state.isProcessing with _ | _
    · have h1 : (executeRound isSilent (rands (state.currentRound + 1))
          (oracles (state.currentRound + 1)) state pending).1.currentRound
          = state.currentRound + 1 := by
        simp [executeRound, hp]
      have h2 : (executeRound isSilent (rands (state.currentRound + 1))
          (oracles (state.currentRound + 1)) state pending).1.roundLimit
          = state.roundLimit := by
        simp [executeRound, hp]
      have e1 : s1.currentRound = state.currentRound + 1 := h1
      have e2 : s1.roundLimit = state.roundLimit := h2
      rw [h1, h2]
      rw [e1, e2] at h
      omega
    · exfalso
      have hq : executeRound isSilent (rands (state.currentRound + 1))
          (oracles (state.currentRound + 1)) state pending = (state, [], []) := by
        simp [executeRound, hp]
      have he : er = ((state, [], []) : ChannelState × List RoundResult × List TurnRecord) := hq
      rw [he] at h
      simp at h

/-- Inputs of `registerFanOutAgent`; the `processMessage` closure is the
opaque tag `procId`. -/
structure RegisterParams where
  channelId : String
  messageId : String
  accountId : String
  botUserId : String
  triggerBotUserId : Option String
  mentionedUserIds : List String
  ctx : Ctx
  procId : Nat
  maxRounds : Option Nat
deriving DecidableEq

/-- Process-wide mutable state touched by the intake API: the
`channelStates` registry plus the armed `setTimeout` handles (modelled as
numeric timer ids) and a fresh-id counter. -/
structure World where
  channels : List (String × ChannelState)
  armedTimers : List Nat
  nextTimerId : Nat
deriving DecidableEq

/-- An empty `ChannelState` as built by `getOrCreateChannelState`. -/
def freshChannelState (roundLimit : Nat) : ChannelState :=
  { currentRound := 0, isProcessing := false, pendingRound := none,
    previousRoundResponders := [], roundLimit := roundLimit,
    responseCallbacks := [],
    conversation := { messages := [], watermarks := [], nextIndex := 0 } }

/-- The source's `getOrCreateChannelState`: lazily create, then overwrite
`roundLimit` whenever `maxRounds` is supplied. -/
def getOrCreateChannelState (channels : List (String × ChannelState))
    (channelId : String) (maxRounds : Option Nat) :
    ChannelState × List (String × ChannelState) :=
  let st :=
    match alookup channels channelId with
    | some s => s
    | none => freshChannelState (maxRounds.getD DEFAULT_MAX_ROUNDS)
  let st :=
    match maxRounds with
    | some m => { st with roundLimit := m }
    | none => st
  (st, aset channels channelId st)

/-- Truthiness of
`Boolean(params.triggerBotUserId && params.triggerBotUserId === params.botUserId)`
(an empty-string `triggerBotUserId` is falsy). -/
def isTriggerAgentOf (p : RegisterParams) : Bool :=
  match p.triggerBotUserId with
  | some t => !(t == "") && t == p.botUserId
  | none => false

/-- The source's `startNewPendingRound`: open a fresh `PendingRound` for
`messageId` (the `triggerAccountId` ternary yields `undefined` in both
branches), register the caller, install it, and arm a fresh collection
timer.  Returns the updated channel state, armed-timer set, and counter. -/
def startNewPendingRound (st : ChannelState) (messageId : String)
    (p : RegisterParams) (armed : List Nat) (nextTimerId : Nat) :
    ChannelState × List Nat × Nat :=
  let pending : PendingRound :=
    { triggerMessageId := messageId
      triggerAccountId := none
      registrations := []
      collectionTimer := none
      mentionedBotIds := p.mentionedUserIds }
  let pending := addRegistration pending
    { accountId := p.accountId, botUserId := p.botUserId, ctx := p.ctx,
      procId := p.procId, skipFirstRound := isTriggerAgentOf p }
  let pending := { pending with collectionTimer := some nextTimerId }
  ({ st with pendingRound := some pending }, armed ++ [nextTimerId], nextTimerId + 1)

/-- Test `state.pendingRound?.triggerMessageId !== messageId` is false,
i.e. a pending round for exactly this message exists. -/
def pendingIdIs (pr : Option PendingRound) (messageId : String) : Bool :=
  match pr with
  | some p => p.triggerMessageId == messageId
  | none => false

/-- The source's `registerFanOutAgent`: during processing a different
message opens a queued fresh `PendingRound` (note: without clearing a
queued predecessor's timer); otherwise a pending round for a different
message is cancelled and discarded, and the registration lands in a fresh
or the existing pending round (deduplicated by `accountId`).  Always
returns `true`. -/
def registerFanOutAgent (w : World) (p : RegisterParams) : World × Bool :=
  let g := getOrCreateChannelState w.channels p.channelId p.maxRounds
  let state := g.1
  let channels := g.2
  if state.isProcessing && !(pendingIdIs state.pendingRound p.messageId) then
    let r := startNewPendingRound state p.messageId p w.armedTimers w.nextTimerId
    ({ channels := aset channels p.channelId r.1,
       armedTimers := r.2.1, nextTimerId := r.2.2 }, true)
  else
    let cleared :=
      match state.pendingRound with
      | some pr =>
        if !(pr.triggerMessageId == p.messageId) then
          (({ state with pendingRound := none } : ChannelState),
           match pr.collectionTimer with
           | some t => w.armedTimers.filter (fun x => !(x == t))
           | none => w.armedTimers)
        else (state, w.armedTimers)
      | none => (state, w.armedTimers)
    let state := cleared.1
    let armed := cleared.2
    match state.pendingRound with
    | none =>
      let r := startNewPendingRound state p.messageId p armed w.nextTimerId
      ({ channels := aset channels p.channelId r.1,
         armedTimers := r.2.1, nextTimerId := r.2.2 }, true)
    | some pr =>
      let pr := addRegistration pr
        { accountId := p.accountId, botUserId := p.botUserId, ctx := p.ctx,
          procId := p.procId, skipFirstRound := isTriggerAgentOf p }
      ({ channels := aset channels p.channelId { state with pendingRound := some pr },
         armedTimers := armed, nextTimerId := w.nextTimerId }, true)

/-- The source's `notifyFanOutResponse`: no channel state or no registered
callback is a no-op; otherwise the callback is deleted and then invoked.
The second component is the delivered resolution, `none` when no callback
ran. -/
def notifyFanOutResponse (channels : List (String × ChannelState))
    (channelId accountId : String) (responseText : Option String) :
    List (String × ChannelState) × Option (Option String) :=
  match alookup channels channelId with
  | none => (channels, none)
  | some state =>
    if state.responseCallbacks.contains accountId then
      let st := { state with
        responseCallbacks := state.responseCallbacks.filter (fun a => !(a == accountId)) }
      (aset channels channelId st, some responseText)
    else (channels, none)

/-- The source's `isFanOutRoundActive`:
`Boolean(channelStates.get(channelId)?.isProcessing)`, a pure read that
returns the registry untouched. -/
def isFanOutRoundActive (channels : List (String × ChannelState))
    (channelId : String) : Bool × List (String × ChannelState) :=
  (match alookup channels channelId with
   | none => false
   | some state => state.isProcessing,
   channels)

/-! Concrete sample inputs used by witnesses and counterexamples. -/

/-- A human-trigger preflight ctx. -/
def sampleCtx : Ctx :=
  { messageText := some "Hello team", isFanOutBotMessage := false,
    fanOutRound := none, fanOutAccumulated := none }

/-- A bot-trigger preflight ctx (`isFanOutBotMessage` set). -/
def sampleCtxBot : Ctx := { sampleCtx with isFanOutBotMessage := true }

/-- Registration of agent `a`. -/
def sampleRegA : AgentRegistration :=
  { accountId := "a", botUserId := "ba", ctx := sampleCtx, procId := 0,
    skipFirstRound := false }

/-- Registration of agent `b`. -/
def sampleRegB : AgentRegistration :=
  { accountId := "b", botUserId := "bb", ctx := sampleCtx, procId := 1,
    skipFirstRound := false }

/-- A pending round for trigger `m1` with agents `a` and `b`. -/
def samplePending : PendingRound :=
  { triggerMessageId := "m1", triggerAccountId := none,
    registrations := [sampleRegA, sampleRegB], collectionTimer := none,
    mentionedBotIds := [] }

/-- A pending round whose sole registration carries a bot-message ctx. -/
def samplePendingBot : PendingRound :=
  { samplePending with registrations := [{ sampleRegA with ctx := sampleCtxBot }] }

/-- A fresh channel state with the default round limit. -/
def sampleState : ChannelState := freshChannelState DEFAULT_MAX_ROUNDS

/-- An oracle under which every agent answers `"R" ++ accountId`. -/
def sampleOracle : String → Option String := fun a => some ("R" ++ a)

/-- A silent-reply predicate recognizing exactly `"NO_REPLY"`. -/
def sampleIsSilent : String → Bool := fun t => t == "NO_REPLY"

/-- A predicate under which no reply is silent. -/
def neverSilent : String → Bool := fun _ => false

/-- A degenerate randomness stream (all Fisher–Yates picks are 0). -/
def zeroRand : Nat → Nat → Nat := fun _ _ => 0

/-- Per-round oracles: everyone replies in round 1, then goes silent. -/
def sampleOracles : Nat → String → Option String :=
  fun k a => if k = 1 then some ("R" ++ a) else some "NO_REPLY"

/-- A queued pending round for message `m2` whose collection timer 0 is
armed. -/
def samplePendingM2 : PendingRound :=
  { triggerMessageId := "m2", triggerAccountId := none, registrations := [],
    collectionTimer := some 0, mentionedBotIds := [] }

/-- A channel mid-round with `samplePendingM2` queued. -/
def sampleStateProcessing : ChannelState :=
  { sampleState with isProcessing := true, pendingRound := some samplePendingM2 }

/-- A world holding that busy channel, timer 0 armed. -/
def sampleWorld : World :=
  { channels := [("c", sampleStateProcessing)], armedTimers := [0], nextTimerId := 1 }

/-- Registration parameters for a third message `m3` on that channel. -/
def sampleParamsM3 : RegisterParams :=
  { channelId := "c", messageId := "m3", accountId := "a", botUserId := "ba",
    triggerBotUserId := none, mentionedUserIds := [], ctx := sampleCtx, procId := 0,
    maxRounds := none }

/-- Registration of agent `c`. -/
def sampleRegC : AgentRegistration :=
  { accountId := "c", botUserId := "bc", ctx := sampleCtx, procId := 2,
    skipFirstRound := false }

/-- A pending round with three agents whose trigger mentions `bb` then
`ba`. -/
def samplePendingMentions : PendingRound :=
  { samplePending with
      registrations := [sampleRegA, sampleRegB, sampleRegC]
      mentionedBotIds := ["bb", "ba"] }

/-- Well-formedness of the conversation log established by the round-1
reset: indices are exactly `0, 1, …, length-1` and `nextIndex` is the
length. -/
def convWF (c : Conversation) : Prop :=
  c.nextIndex = (c.messages.length : Int) ∧
  ∀ i (h : i < c.messages.length), (c.messages.get ⟨i, h⟩).index = (i : Int)

/-- Watermark sanity: every stored watermark is at most the tail index, the
tail index is below `nextIndex`, and at least `-1`. -/
def convInv (c : Conversation) : Prop :=
  (∀ p ∈ c.watermarks, p.2 ≤ tailIndex c) ∧ tailIndex c < c.nextIndex ∧ -1 ≤ tailIndex c

/-! Association-list lemmas. -/

theorem alookup_aset_self {β : Type} (m : List (String × β)) (k : String) (v : β) :
    alookup (aset m k v) k = some v := by
  induction m with
  | nil => simp [aset, alookup]
  | cons p rest ih =>
    obtain ⟨k1, v1⟩ := p
    by_cases h : k1 = k
    · simp [aset, alookup, h]
    · simp [aset, alookup, h, ih]

theorem alookup_aset_ne {β : Type} (m : List (String × β)) (k k2 : String) (v : β)
    (h : k2 ≠ k) : alookup (aset m k v) k2 = alookup m k2 := by
  induction m with
  | nil => simp [aset, alookup, Ne.symm h]
  | cons p rest ih =>
    obtain ⟨k1, v1⟩ := p
    by_cases h1 : k1 = k
    · subst h1
      simp [aset, alookup, Ne.symm h]
    · simp [aset, alookup, h1, ih]

theorem not_mem_filter_self (l : List String) (x : String) :
    x ∉ l.filter (fun a => !(a == x)) := by
  intro h
  simp [List.mem_filter] at h

theorem contains_filter_self (l : List String) (x : String) :
    (l.filter (fun a => !(a == x))).contains x = false := by
  cases hc : (l.filter (fun a => !(a == x))).contains x with
  | false => rfl
  | true => exact absurd (by simpa using hc) (not_mem_filter_self l x)

/-- C10: `isFanOutRoundActive` on a channel with no `ChannelState` returns
`false` and leaves the `channelStates` registry identical. -/
theorem isFanOutRoundActive_absent (channels : List (String × ChannelState))
    (channelId : String) (h : alookup channels channelId = none) :
    isFanOutRoundActive channels channelId = (false, channels) := by
  simp [isFanOutRoundActive, h]

theorem isFanOutRoundActive_absent_witness :
    isFanOutRoundActive [] "c" = (false, []) :=
  isFanOutRoundActive_absent [] "c" rfl

/-- C8: `notifyFanOutResponse` is a no-op when the channel has no state or
no callback is registered under the accountId (late notifies included); when
a callback exists it is removed before being invoked, so a second notify for
the same accountId never invokes anything: each resolver fires at most
once. -/
theorem notifyFanOutResponse_noop_and_once (channels : List (String × ChannelState))
    (channelId accountId : String) (t : Option String) :
    (alookup channels channelId = none →
      notifyFanOutResponse channels channelId accountId t = (channels, none)) ∧
    (∀ st, alookup channels channelId = some st →
      st.responseCallbacks.contains accountId = false →
      notifyFanOutResponse channels channelId accountId t = (channels, none)) ∧
    (∀ st, alookup channels channelId = some st →
      st.responseCallbacks.contains accountId = true →
      (notifyFanOutResponse channels channelId accountId t).2 = some t ∧
      ∀ st2, alookup (notifyFanOutResponse channels channelId accountId t).1 channelId
          = some st2 → st2.responseCallbacks.contains accountId = false) ∧
    (∀ t2, (notifyFanOutResponse
        (notifyFanOutResponse channels channelId accountId t).1
        channelId accountId t2).2 = none) := by
  refine ⟨fun h => by simp [notifyFanOutResponse, h], ?_, ?_, ?_⟩
  · intro st hst hc
    have hc2 : accountId ∉ st.responseCallbacks := by simpa using hc
    simp [notifyFanOutResponse, hst, hc2]
  · intro st hst hc
    have hc2 : accountId ∈ st.responseCallbacks := by simpa using hc
    constructor
    · simp [notifyFanOutResponse, hst, hc2]
    · intro st2 hst2
      rw [show (notifyFanOutResponse channels channelId accountId t).1
            = aset channels channelId
                { st with responseCallbacks :=
                    st.responseCallbacks.filter (fun a => !(a == accountId)) } by
          simp [notifyFanOutResponse, hst, hc2]] at hst2
      rw [alookup_aset_self] at hst2
      cases hst2
      exact contains_filter_self _ _
  · intro t2
    cases hch : alookup channels channelId with
    | none => simp [notifyFanOutResponse, hch]
    | some st =>
      by_cases hc2 : accountId ∈ st.responseCallbacks
      · have h1 : (notifyFanOutResponse channels channelId accountId t).1
            = aset channels channelId
                { st with responseCallbacks :=
                    st.responseCallbacks.filter (fun a => !(a == accountId)) } := by
          simp [notifyFanOutResponse, hch, hc2]
        rw [h1]
        simp [notifyFanOutResponse, alookup_aset_self, not_mem_filter_self]
      · have h1 : (notifyFanOutResponse channels channelId accountId t).1 = channels := by
          simp [notifyFanOutResponse, hch, hc2]
        rw [h1]
        simp [notifyFanOutResponse, hch, hc2]

theorem notifyFanOutResponse_noop_and_once_witness :
    (alookup ([] : List (String × ChannelState)) "c" = none →
      notifyFanOutResponse [] "c" "a" (some "hi") = ([], none)) ∧
    (∀ st, alookup ([] : List (String × ChannelState)) "c" = some st →
      st.responseCallbacks.contains "a" = false →
      notifyFanOutResponse [] "c" "a" (some "hi") = ([], none)) ∧
    (∀ st, alookup ([] : List (String × ChannelState)) "c" = some st →
      st.responseCallbacks.contains "a" = true →
      (notifyFanOutResponse [] "c" "a" (some "hi")).2 = some (some "hi") ∧
      ∀ st2, alookup (notifyFanOutResponse [] "c" "a" (some "hi")).1 "c" = some st2 →
        st2.responseCallbacks.contains "a" = false) ∧
    (∀ t2, (notifyFanOutResponse
        (notifyFanOutResponse [] "c" "a" (some "hi")).1 "c" "a" t2).2 = none) :=
  notifyFanOutResponse_noop_and_once [] "c" "a" (some "hi")

/-- C9: a second `registerFanOutAgent` call with an `accountId` already
registered in the pending round for the same `messageId` is discarded
entirely: the `PendingRound` (its registrations list, hence its length and
the first registration's `botUserId`, `ctx`, `processMessage` tag, and
`skipFirstRound`) is unchanged — the first registration wins. -/
theorem registerFanOutAgent_dedup (w : World) (p : RegisterParams)
    (st : ChannelState) (pr : PendingRound)
    (hch : alookup w.channels p.channelId = some st)
    (hpr : st.pendingRound = some pr)
    (hid : pr.triggerMessageId = p.messageId)
    (hdup : pr.registrations.any (fun r => r.accountId == p.accountId) = true) :
    (alookup (registerFanOutAgent w p).1.channels p.channelId).map
      (fun s => s.pendingRound) = some (some pr) := by
  have hpid2 : pendingIdIs (some pr) p.messageId = true := by
    simp [pendingIdIs, hid]
  have hbeq : (pr.triggerMessageId == p.messageId) = true := by simp [hid]
  cases hmx : p.maxRounds with
  | none =>
    simp [registerFanOutAgent, getOrCreateChannelState, hch, hmx, hpr, hpid2, hbeq,
      addRegistration, hdup, alookup_aset_self]
  | some m =>
    simp [registerFanOutAgent, getOrCreateChannelState, hch, hmx, hpr, hpid2, hbeq,
      addRegistration, hdup, alookup_aset_self]

theorem registerFanOutAgent_dedup_witness :
    (alookup (registerFanOutAgent
        { channels := [("c", { sampleState with pendingRound := some samplePending })],
          armedTimers := [], nextTimerId := 0 }
        { sampleParamsM3 with messageId := "m1" }).1.channels "c").map
      (fun s => s.pendingRound) = some (some samplePending) :=
  registerFanOutAgent_dedup _ _
    { sampleState with pendingRound := some samplePending } samplePending
    (by decide) (by decide) (by decide) (by decide)

/-- C3 (code bug): a registration for a new message `m3` arriving while a
round is processing replaces the queued `PendingRound` for `m2` without
clearing its armed collection timer — timer 0 stays armed after the pending
round owning it was discarded, contradicting the required invariant. -/
theorem registerFanOutAgent_leaves_stale_timer :
    (registerFanOutAgent sampleWorld sampleParamsM3).1.armedTimers = [0, 1] ∧
    (alookup (registerFanOutAgent sampleWorld sampleParamsM3).1.channels "c").map
        (fun s => s.pendingRound.map (fun pr => (pr.triggerMessageId, pr.collectionTimer)))
      = some (some ("m3", some 1)) := by
  constructor <;> decide

/-! Field equations of the `TurnRecord` built by `runTurn`. -/

theorem runTurn_rec_reg (isSilent : String → Bool) (oracle : String → Option String)
    (n : Nat) (conv : Conversation) (reg : AgentRegistration) :
    ((runTurn isSilent oracle n conv reg).2.2).reg = reg := rfl

theorem runTurn_rec_roundNo (isSilent : String → Bool) (oracle : String → Option String)
    (n : Nat) (conv : Conversation) (reg : AgentRegistration) :
    ((runTurn isSilent oracle n conv reg).2.2).roundNo = n := rfl

theorem runTurn_rec_convBefore (isSilent : String → Bool) (oracle : String → Option String)
    (n : Nat) (conv : Conversation) (reg : AgentRegistration) :
    ((runTurn isSilent oracle n conv reg).2.2).convBefore = conv := rfl

theorem runTurn_rec_watermark (isSilent : String → Bool) (oracle : String → Option String)
    (n : Nat) (conv : Conversation) (reg : AgentRegistration) :
    ((runTurn isSilent oracle n conv reg).2.2).watermarkBefore
      = wmLookup conv reg.accountId := rfl

theorem runTurn_rec_accumulated (isSilent : String → Bool) (oracle : String → Option String)
    (n : Nat) (conv : Conversation) (reg : AgentRegistration) :
    ((runTurn isSilent oracle n conv reg).2.2).accumulated
      = ((conv.messages.filter (fun m => wmLookup conv reg.accountId < m.index)).filter
          (fun m => !(m.agentId == "human"))).map
          (fun m => "[" ++ m.agentId ++ "]: " ++ m.content) := rfl

theorem runTurn_rec_ctxGiven (isSilent : String → Bool) (oracle : String → Option String)
    (n : Nat) (conv : Conversation) (reg : AgentRegistration) :
    ((runTurn isSilent oracle n conv reg).2.2).ctxGiven
      = buildAccumulatedContext reg.ctx
          (((conv.messages.filter (fun m => wmLookup conv reg.accountId < m.index)).filter
            (fun m => !(m.agentId == "human"))).map
            (fun m => "[" ++ m.agentId ++ "]: " ++ m.content)) n := rfl

theorem runTurn_rec_responseText (isSilent : String → Bool) (oracle : String → Option String)
    (n : Nat) (conv : Conversation) (reg : AgentRegistration) :
    ((runTurn isSilent oracle n conv reg).2.2).responseText = oracle reg.accountId := rfl

theorem runTurn_rec_responded (isSilent : String → Bool) (oracle : String → Option String)
    (n : Nat) (conv : Conversation) (reg : AgentRegistration) :
    ((runTurn isSilent oracle n conv reg).2.2).responded
      = respondedOf isSilent (oracle reg.accountId) := rfl

/-- Every turn record of `runTurns` is the record `runTurn` produced from
its own `convBefore` and `reg`, with the loop's round number. -/
theorem runTurns_turns_spec (isSilent : String → Bool) (oracle : String → Option String)
    (roundNo : Nat) :
    ∀ (regs : List AgentRegistration) (conv : Conversation),
      ∀ t ∈ (runTurns isSilent oracle roundNo conv regs).2.2,
        t.roundNo = roundNo ∧
        t = (runTurn isSilent oracle roundNo t.convBefore t.reg).2.2 ∧
        t.convAfter = (runTurn isSilent oracle roundNo t.convBefore t.reg).1 := by
  intro regs
  induction regs with
  | nil =>
    intro conv t ht
    simp [runTurns] at ht
  | cons reg rest ih =>
    intro conv t ht
    by_cases hs : (reg.skipFirstRound && roundNo == 1) = true
    · simp only [runTurns, hs, if_true] at ht
      exact ih _ t ht
    · simp only [runTurns, hs, if_false, Bool.false_eq_true, List.mem_cons] at ht
      rcases ht with h1 | h1
      · subst h1
        exact ⟨rfl, rfl, rfl⟩
      · exact ih _ t h1

/-- Transfer of `runTurns_turns_spec` to a full `executeRound`. -/
theorem executeRound_turns_spec (isSilent : String → Bool) (rand : Nat → Nat → Nat)
    (oracle : String → Option String) (state : ChannelState) (pending : PendingRound)
    (h : state.isProcessing = false) :
    ∀ t ∈ (executeRound isSilent rand oracle state pending).2.2,
      t.roundNo = state.currentRound + 1 ∧
      t = (runTurn isSilent oracle (state.currentRound + 1) t.convBefore t.reg).2.2 ∧
      t.convAfter = (runTurn isSilent oracle (state.currentRound + 1) t.convBefore t.reg).1 := by
  intro t ht
  simp only [executeRound, h, Bool.false_eq_true, if_false] at ht
  exact runTurns_turns_spec isSilent oracle (state.currentRound + 1) _ _ t ht

/-- Behaviour of `buildAccumulatedContext` against `getFanOutRoundInfo`:
the round metadata is attached and readable unless the accumulated list is
empty and the ctx is a fan-out bot message, in which case the ctx is
returned as a plain copy. -/
theorem getFanOutRoundInfo_build (ctx : Ctx) (accs : List String) (n : Nat) :
    ((accs ≠ [] ∨ ctx.isFanOutBotMessage = false) →
      getFanOutRoundInfo (buildAccumulatedContext ctx accs n) = some (n, accs)) ∧
    (accs = [] → ctx.isFanOutBotMessage = true → buildAccumulatedContext ctx accs n = ctx) := by
  constructor
  · intro hc
    rcases hc with hne | hbot
    · cases accs with
      | nil => simp at hne
      | cons a as => simp [buildAccumulatedContext, getFanOutRoundInfo]
    · cases accs with
      | nil => simp [buildAccumulatedContext, getFanOutRoundInfo, hbot]
      | cons a as => simp [buildAccumulatedContext, getFanOutRoundInfo]
  · intro he hbot
    subst he
    simp [buildAccumulatedContext, hbot]

/-- C4 (amended): for every agent invoked in a round, the ctx handed to
`processMessage` is the registered ctx copied and augmented with the
1-based round number and the `"[agentId]: content"` strings of every
message above the agent's watermark whose sender is not `"human"`, and
`getFanOutRoundInfo` recovers `{round, accumulatedResponses}` — except
when the accumulated list is empty and the registered ctx has
`isFanOutBotMessage` set, in which case the ctx is handed over as a plain
unaugmented copy (so `getFanOutRoundInfo` yields `null` when the
registered ctx carried no stale round field). -/
theorem fanout_round_ctx_info (isSilent : String → Bool) (rand : Nat → Nat → Nat)
    (oracle : String → Option String) (state : ChannelState) (pending : PendingRound)
    (h : state.isProcessing = false) :
    ∀ t ∈ (executeRound isSilent rand oracle state pending).2.2,
      t.roundNo = state.currentRound + 1 ∧
      t.watermarkBefore = wmLookup t.convBefore t.reg.accountId ∧
      t.accumulated = ((t.convBefore.messages.filter
          (fun m => t.watermarkBefore < m.index)).filter
          (fun m => !(m.agentId == "human"))).map
          (fun m => "[" ++ m.agentId ++ "]: " ++ m.content) ∧
      ((t.accumulated ≠ [] ∨ t.reg.ctx.isFanOutBotMessage = false) →
        getFanOutRoundInfo t.ctxGiven = some (t.roundNo, t.accumulated)) ∧
      (t.accumulated = [] → t.reg.ctx.isFanOutBotMessage = true →
        t.ctxGiven = t.reg.ctx) := by
  intro t ht
  obtain ⟨hrn, hteq, -⟩ :=
    executeRound_turns_spec isSilent rand oracle state pending h t ht
  refine ⟨hrn, ?_, ?_, ?_, ?_⟩
  · conv_lhs => rw [hteq]
    rw [runTurn_rec_watermark]
  · conv_lhs => rw [hteq]
    rw [runTurn_rec_accumulated]
    conv_rhs => rw [hteq]
    rw [runTurn_rec_watermark, runTurn_rec_convBefore]
  · intro hcase
    rw [hteq, runTurn_rec_ctxGiven, runTurn_rec_roundNo, runTurn_rec_accumulated]
    rw [hteq, runTurn_rec_accumulated, runTurn_rec_reg] at hcase
    exact (getFanOutRoundInfo_build _ _ _).1 hcase
  · intro he hbot
    rw [hteq, runTurn_rec_accumulated] at he
    rw [hteq, runTurn_rec_reg] at hbot
    rw [hteq, runTurn_rec_ctxGiven, runTurn_rec_reg]
    exact (getFanOutRoundInfo_build _ _ _).2 he hbot

theorem fanout_round_ctx_info_witness :
    ∃ t ∈ (executeRound neverSilent zeroRand sampleOracle sampleState samplePending).2.2,
      t.roundNo = sampleState.currentRound + 1 ∧
      getFanOutRoundInfo t.ctxGiven = some (t.roundNo, t.accumulated) := by
  have hne : (executeRound neverSilent zeroRand sampleOracle sampleState
      samplePending).2.2 ≠ [] := by decide
  have hmem := List.head_mem hne
  refine ⟨_, hmem, ?_, ?_⟩
  · exact (fanout_round_ctx_info neverSilent zeroRand sampleOracle sampleState
      samplePending rfl _ hmem).1
  · refine (fanout_round_ctx_info neverSilent zeroRand sampleOracle sampleState
      samplePending rfl _ hmem).2.2.2.1 (Or.inr ?_)
    rfl

/-- C4 (counterexample): in round 1 triggered by a fan-out bot message, the
single invoked agent has empty `accumulatedResponses` and receives a ctx on
which `getFanOutRoundInfo` returns `null`, refuting the claim that every
invoked agent's ctx carries the round metadata. -/
theorem fanout_round_ctx_info_cex :
    ((executeRound neverSilent zeroRand sampleOracle sampleState samplePendingBot).2.2.map
      (fun t => (t.accumulated, getFanOutRoundInfo t.ctxGiven)))
      = [([], none)] := by decide

/-! Field equations of the `RoundResult` built by `runTurn`. -/

theorem runTurn_res_responded (isSilent : String → Bool) (oracle : String → Option String)
    (n : Nat) (conv : Conversation) (reg : AgentRegistration) :
    ((runTurn isSilent oracle n conv reg).2.1).responded
      = respondedOf isSilent (oracle reg.accountId) := rfl

theorem runTurn_res_accountId (isSilent : String → Bool) (oracle : String → Option String)
    (n : Nat) (conv : Conversation) (reg : AgentRegistration) :
    ((runTurn isSilent oracle n conv reg).2.1).accountId = reg.accountId := rfl

/-- A responded `RoundResult` of the turn loop always stems from a
non-empty, non-silent oracle answer for its accountId. -/
theorem runTurns_results_responded (isSilent : String → Bool)
    (oracle : String → Option String) (roundNo : Nat) :
    ∀ (regs : List AgentRegistration) (conv : Conversation),
      ∀ res ∈ (runTurns isSilent oracle roundNo conv regs).2.1,
        res.responded = true →
        ∃ tx, oracle res.accountId = some tx ∧ tx ≠ "" ∧ isSilent tx = false := by
  intro regs
  induction regs with
  | nil =>
    intro conv res h
    simp [runTurns] at h
  | cons reg rest ih =>
    intro conv res hres hr
    by_cases hs : (reg.skipFirstRound && roundNo == 1) = true
    · simp only [runTurns, hs, if_true, List.mem_cons] at hres
      rcases hres with h1 | h1
      · subst h1
        simp at hr
      · exact ih _ res h1 hr
    · simp only [runTurns, hs, if_false, Bool.false_eq_true, List.mem_cons] at hres
      rcases hres with h1 | h1
      · subst h1
        rw [runTurn_res_responded] at hr
        rw [runTurn_res_accountId]
        cases ho : oracle reg.accountId with
        | none => rw [ho] at hr; simp [respondedOf] at hr
        | some tx =>
          rw [ho] at hr
          simp only [respondedOf, Bool.and_eq_true, Bool.not_eq_true'] at hr
          exact ⟨tx, rfl, by simpa using hr.1, hr.2⟩
      · exact ih _ res h1 hr

/-- C5: a turn counts as responded iff the resolver produced non-empty text
that is not silent per the silent-reply predicate; a non-responded turn
appends no `ConversationMessage` and leaves the agent out of
`previousRoundResponders`; a responded turn appends the text at
`nextIndex` and sets the agent's watermark to that appended index. -/
theorem fanout_response_semantics (isSilent : String → Bool) (rand : Nat → Nat → Nat)
    (oracle : String → Option String) (roundNo : Nat) (conv : Conversation)
    (reg : AgentRegistration) (state : ChannelState) (pending : PendingRound)
    (hproc : state.isProcessing = false) :
    (((runTurn isSilent oracle roundNo conv reg).2.1).responded = true ↔
      ∃ tx, oracle reg.accountId = some tx ∧ tx ≠ "" ∧ isSilent tx = false) ∧
    (((runTurn isSilent oracle roundNo conv reg).2.1).responded = false →
      ((runTurn isSilent oracle roundNo conv reg).1).messages = conv.messages) ∧
    (∀ tx, oracle reg.accountId = some tx →
      ((runTurn isSilent oracle roundNo conv reg).2.1).responded = true →
      ((runTurn isSilent oracle roundNo conv reg).1).messages
        = conv.messages ++
          [{ agentId := reg.accountId, content := tx, index := conv.nextIndex }] ∧
      alookup ((runTurn isSilent oracle roundNo conv reg).1).watermarks reg.accountId
        = some conv.nextIndex) ∧
    (∀ a, (∀ tx, oracle a = some tx → tx = "" ∨ isSilent tx = true) →
      a ∉ (executeRound isSilent rand oracle state pending).1.previousRoundResponders) := by
  refine ⟨?_, ?_, ?_, ?_⟩
  · rw [runTurn_res_responded]
    cases ho : oracle reg.accountId with
    | none => simp [respondedOf]
    | some tx => simp [respondedOf, Bool.and_eq_true, Bool.not_eq_true']
  · intro hresp
    rw [runTurn_res_responded] at hresp
    simp only [runTurn, hresp, Bool.false_eq_true, if_false]
  · intro tx ho hresp
    rw [runTurn_res_responded, ho] at hresp
    constructor
    · simp only [runTurn, hresp, ho, if_true]
    · simp only [runTurn, hresp, ho, if_true]
      rw [alookup_aset_self]
      simp [tailIndex, List.getLast?_concat]
  · intro a hsil hmem
    simp only [executeRound, hproc, Bool.false_eq_true, if_false] at hmem
    simp only [List.mem_map, List.mem_filter, List.mem_append] at hmem
    obtain ⟨res, ⟨hres_mem, hres_resp⟩, hres_acc⟩ := hmem
    rcases hres_mem with hm | hm
    · obtain ⟨r0, -, hr0⟩ := hm
      rw [← hr0] at hres_resp
      simp at hres_resp
    · obtain ⟨tx, htx, hne, hns⟩ :=
        runTurns_results_responded isSilent oracle _ _ _ res hm hres_resp
      rw [hres_acc] at htx
      rcases hsil tx htx with h1 | h1
      · exact hne h1
      · rw [h1] at hns
        simp at hns

theorem fanout_response_semantics_witness :
    (((runTurn sampleIsSilent (fun _ => some "NO_REPLY") 1
        (initialConv samplePending) sampleRegA).2.1).responded = true ↔
      ∃ tx, (fun _ => some "NO_REPLY") sampleRegA.accountId = some tx ∧ tx ≠ "" ∧
        sampleIsSilent tx = false) ∧
    (((runTurn sampleIsSilent (fun _ => some "NO_REPLY") 1
        (initialConv samplePending) sampleRegA).2.1).responded = false →
      ((runTurn sampleIsSilent (fun _ => some "NO_REPLY") 1
        (initialConv samplePending) sampleRegA).1).messages
        = (initialConv samplePending).messages) ∧
    (∀ tx, (fun _ => some "NO_REPLY") sampleRegA.accountId = some tx →
      ((runTurn sampleIsSilent (fun _ => some "NO_REPLY") 1
        (initialConv samplePending) sampleRegA).2.1).responded = true →
      ((runTurn sampleIsSilent (fun _ => some "NO_REPLY") 1
        (initialConv samplePending) sampleRegA).1).messages
        = (initialConv samplePending).messages ++
          [{ agentId := sampleRegA.accountId, content := tx,
             index := (initialConv samplePending).nextIndex }] ∧
      alookup ((runTurn sampleIsSilent (fun _ => some "NO_REPLY") 1
          (initialConv samplePending) sampleRegA).1).watermarks sampleRegA.accountId
        = some (initialConv samplePending).nextIndex) ∧
    (∀ a, (∀ tx, (fun _ => some "NO_REPLY") a = some tx → tx = "" ∨
        sampleIsSilent tx = true) →
      a ∉ (executeRound sampleIsSilent zeroRand (fun _ => some "NO_REPLY")
        sampleState samplePending).1.previousRoundResponders) :=
  fanout_response_semantics sampleIsSilent zeroRand (fun _ => some "NO_REPLY") 1
    (initialConv samplePending) sampleRegA sampleState samplePending rfl

/-! Conversation-log well-formedness. -/

theorem runTurn_messages_shape (isSilent : String → Bool) (oracle : String → Option String)
    (n : Nat) (conv : Conversation) (reg : AgentRegistration) :
    ∃ suffix, (runTurn isSilent oracle n conv reg).1.messages = conv.messages ++ suffix := by
  by_cases hr : respondedOf isSilent (oracle reg.accountId) = true
  · cases ho : oracle reg.accountId with
    | none => rw [ho] at hr; simp [respondedOf] at hr
    | some tx =>
      rw [ho] at hr
      refine ⟨[{ agentId := reg.accountId, content := tx, index := conv.nextIndex }], ?_⟩
      simp only [runTurn, ho, hr, if_true]
  · have hr2 : respondedOf isSilent (oracle reg.accountId) = false := by
      simpa using hr
    refine ⟨[], ?_⟩
    simp only [runTurn, hr2, Bool.false_eq_true, if_false, List.append_nil]

theorem runTurns_messages_shape (isSilent : String → Bool) (oracle : String → Option String)
    (roundNo : Nat) :
    ∀ (regs : List AgentRegistration) (conv : Conversation),
      ∃ suffix, (runTurns isSilent oracle roundNo conv regs).1.messages
        = conv.messages ++ suffix := by
  intro regs
  induction regs with
  | nil =>
    intro conv
    exact ⟨[], by simp [runTurns]⟩
  | cons reg rest ih =>
    intro conv
    by_cases hs : (reg.skipFirstRound && roundNo == 1) = true
    · obtain ⟨s, hsuf⟩ := ih conv
      exact ⟨s, by simp only [runTurns, hs, if_true]; exact hsuf⟩
    · obtain ⟨s1, hs1⟩ := runTurn_messages_shape isSilent oracle roundNo conv reg
      obtain ⟨s2, hs2⟩ := ih (runTurn isSilent oracle roundNo conv reg).1
      refine ⟨s1 ++ s2, ?_⟩
      simp only [runTurns, hs, if_false, Bool.false_eq_true]
      rw [hs2, hs1, List.append_assoc]

theorem convWF_initial (pending : PendingRound) : convWF (initialConv pending) := by
  constructor
  · simp [initialConv]
  · intro i h
    simp only [initialConv, List.length_singleton] at h
    have hi : i = 0 := by omega
    subst hi
    rfl

theorem convWF_push (conv : Conversation) (m : ConversationMessage)
    (w : List (String × Int)) (h : convWF conv) (hm : m.index = conv.nextIndex) :
    convWF { messages := conv.messages ++ [m], watermarks := w,
             nextIndex := conv.nextIndex + 1 } := by
  rcases h with ⟨h1, h2⟩
  constructor
  · show conv.nextIndex + 1 = ((conv.messages ++ [m]).length : Int)
    simp only [List.length_append, List.length_singleton]
    rw [h1]
    push_cast
    ring
  · intro i hi
    show (((conv.messages ++ [m]).get ⟨i, hi⟩)).index = (i : Int)
    have hi2 : i < conv.messages.length + 1 := by
      simpa using hi
    rw [List.get_eq_getElem]
    by_cases hlt : i < conv.messages.length
    · rw [List.getElem_append_left hlt]
      have hx := h2 i hlt
      rw [List.get_eq_getElem] at hx
      exact hx
    · have hieq : i = conv.messages.length := by omega
      subst hieq
      simp only [List.getElem_concat_length]
      rw [hm, h1]

theorem convWF_runTurn (isSilent : String → Bool) (oracle : String → Option String)
    (n : Nat) (conv : Conversation) (reg : AgentRegistration) (h : convWF conv) :
    convWF (runTurn isSilent oracle n conv reg).1 := by
  by_cases hr : respondedOf isSilent (oracle reg.accountId) = true
  · cases ho : oracle reg.accountId with
    | none => rw [ho] at hr; simp [respondedOf] at hr
    | some tx =>
      rw [ho] at hr
      simp only [runTurn, ho, hr, if_true]
      exact convWF_push conv _ _ h rfl
  · have hr2 : respondedOf isSilent (oracle reg.accountId) = false := by
      simpa using hr
    simp only [runTurn, hr2, Bool.false_eq_true, if_false]
    exact h

theorem convWF_runTurns (isSilent : String → Bool) (oracle : String → Option String)
    (roundNo : Nat) :
    ∀ (regs : List AgentRegistration) (conv : Conversation), convWF conv →
      convWF (runTurns isSilent oracle roundNo conv regs).1 := by
  intro regs
  induction regs with
  | nil =>
    intro conv h
    simpa [runTurns] using h
  | cons reg rest ih =>
    intro conv h
    by_cases hs : (reg.skipFirstRound && roundNo == 1) = true
    · simp only [runTurns, hs, if_true]
      exact ih conv h
    · simp only [runTurns, hs, if_false, Bool.false_eq_true]
      exact ih _ (convWF_runTurn isSilent oracle roundNo conv reg h)

theorem convWF_pairwise (c : Conversation) (h : convWF c) :
    (c.messages.map (fun m => m.index)).Pairwise (fun a b => a < b) := by
  rcases h with ⟨-, h2⟩
  rw [List.pairwise_map, List.pairwise_iff_get]
  intro i j hij
  rw [h2 i.1 i.2, h2 j.1 j.2]
  exact_mod_cast hij

/-- C7: within one conversation every message index is unique and strictly
greater than all earlier ones: a first round resets the log and assigns
index 0 to the `"human"` trigger message, and every append assigns
`nextIndex` and increments it, so the index list stays exactly
`0, …, length-1` in order. -/
theorem fanout_indices_strict (isSilent : String → Bool) (rand : Nat → Nat → Nat)
    (oracle : String → Option String) (state : ChannelState) (pending : PendingRound)
    (hproc : state.isProcessing = false)
    (h : state.currentRound = 0 ∨ convWF state.conversation) :
    convWF (executeRound isSilent rand oracle state pending).1.conversation ∧
    ((executeRound isSilent rand oracle state pending).1.conversation.messages.map
      (fun m => m.index)).Pairwise (fun a b => a < b) ∧
    (state.currentRound = 0 →
      ∃ rest, (executeRound isSilent rand oracle state pending).1.conversation.messages
        = { agentId := "human",
            content := match pending.registrations.head? with
              | some r => r.ctx.messageText.getD "(trigger message)"
              | none => "(trigger message)",
            index := 0 } :: rest) := by
  have hwf : convWF (executeRound isSilent rand oracle state pending).1.conversation := by
    cases hc : state.currentRound with
    | zero =>
      have hcv : (executeRound isSilent rand oracle state pending).1.conversation
          = (runTurns isSilent oracle 1
              (initialConv pending)
              (orderAgents rand
                (pending.registrations.filter (fun reg => hasNewMessages (initialConv pending) reg))
                pending.mentionedBotIds state.previousRoundResponders true)).1 := by
        simp [executeRound, hproc, hc]
      rw [hcv]
      exact convWF_runTurns isSilent oracle 1 _ _ (convWF_initial pending)
    | succ k =>
      rcases h with h0 | hwf0
      · rw [hc] at h0; cases h0
      · have hne : ((k + 1 + 1 : Nat) == 1) = false := by simp
        have hcv : (executeRound isSilent rand oracle state pending).1.conversation
            = (runTurns isSilent oracle (k + 1 + 1)
                state.conversation
                (orderAgents rand
                  (pending.registrations.filter
                    (fun reg => hasNewMessages state.conversation reg))
                  pending.mentionedBotIds state.previousRoundResponders false)).1 := by
          simp [executeRound, hproc, hc, hne]
        rw [hcv]
        exact convWF_runTurns isSilent oracle _ _ _ hwf0
  refine ⟨hwf, convWF_pairwise _ hwf, ?_⟩
  intro hc
  have hcv : (executeRound isSilent rand oracle state pending).1.conversation
      = (runTurns isSilent oracle 1
          (initialConv pending)
          (orderAgents rand
            (pending.registrations.filter (fun reg => hasNewMessages (initialConv pending) reg))
            pending.mentionedBotIds state.previousRoundResponders true)).1 := by
    simp [executeRound, hproc, hc]
  obtain ⟨suffix, hsuf⟩ := runTurns_messages_shape isSilent oracle 1
    (orderAgents rand
      (pending.registrations.filter (fun reg => hasNewMessages (initialConv pending) reg))
      pending.mentionedBotIds state.previousRoundResponders true)
    (initialConv pending)
  refine ⟨suffix, ?_⟩
  rw [hcv, hsuf]
  rfl

theorem fanout_indices_strict_witness :
    convWF (executeRound neverSilent zeroRand sampleOracle sampleState
      samplePending).1.conversation ∧
    ((executeRound neverSilent zeroRand sampleOracle sampleState
      samplePending).1.conversation.messages.map
      (fun m => m.index)).Pairwise (fun a b => a < b) ∧
    (sampleState.currentRound = 0 →
      ∃ rest, (executeRound neverSilent zeroRand sampleOracle sampleState
          samplePending).1.conversation.messages
        = { agentId := "human",
            content := match samplePending.registrations.head? with
              | some r => r.ctx.messageText.getD "(trigger message)"
              | none => "(trigger message)",
            index := 0 } :: rest) :=
  fanout_indices_strict neverSilent zeroRand sampleOracle sampleState samplePending
    rfl (Or.inl rfl)

/-! Watermark invariants. -/

theorem alookup_mem {β : Type} : ∀ (m : List (String × β)) (k : String) (v : β),
    alookup m k = some v → (k, v) ∈ m := by
  intro m
  induction m with
  | nil =>
    intro k v h
    simp [alookup] at h
  | cons p rest ih =>
    intro k v h
    obtain ⟨k1, v1⟩ := p
    by_cases h1 : k1 = k
    · subst h1
      simp [alookup] at h
      subst h
      exact List.mem_cons_self _ _
    · simp only [alookup, if_neg h1] at h
      exact List.mem_cons_of_mem _ (ih k v h)

theorem mem_aset {β : Type} : ∀ (m : List (String × β)) (k : String) (v : β) (p),
    p ∈ aset m k v → p = (k, v) ∨ p ∈ m := by
  intro m
  induction m with
  | nil =>
    intro k v p h
    simp [aset] at h
    exact Or.inl h
  | cons q rest ih =>
    intro k v p h
    obtain ⟨k1, v1⟩ := q
    by_cases h1 : k1 = k
    · simp only [aset, if_pos h1, List.mem_cons] at h
      rcases h with h | h
      · exact Or.inl h
      · exact Or.inr (List.mem_cons_of_mem _ h)
    · simp only [aset, if_neg h1, List.mem_cons] at h
      rcases h with h | h
      · exact Or.inr (by simp [h])
      · rcases ih k v p h with h2 | h2
        · exact Or.inl h2
        · exact Or.inr (List.mem_cons_of_mem _ h2)

theorem wmLookup_eq (c : Conversation) (a : String) :
    wmLookup c a = (alookup c.watermarks a).getD (-1) := rfl

theorem wmLookup_le_tail (c : Conversation) (h : convInv c) (a : String) :
    wmLookup c a ≤ tailIndex c := by
  obtain ⟨h1, -, h3⟩ := h
  rw [wmLookup_eq]
  cases hl : alookup c.watermarks a with
  | none => simpa using h3
  | some v => simpa using h1 (a, v) (alookup_mem _ _ _ hl)

theorem tailIndex_mk_concat (l : List ConversationMessage) (m : ConversationMessage)
    (w : List (String × Int)) (n : Int) :
    tailIndex { messages := l ++ [m], watermarks := w, nextIndex := n } = m.index := by
  simp [tailIndex, List.getLast?_concat]

theorem tailIndex_mk_same (c : Conversation) (w : List (String × Int)) :
    tailIndex { messages := c.messages, watermarks := w, nextIndex := c.nextIndex }
      = tailIndex c := rfl

theorem convInv_initial (pending : PendingRound) : convInv (initialConv pending) := by
  refine ⟨?_, ?_, ?_⟩ <;> simp [initialConv, tailIndex]

/-- Shape of the conversation after a responded turn: the watermark map is
updated twice (pre-invoke to the old tail, then to the appended index), the
tail becomes the appended index `conv.nextIndex`, the message is appended,
and `nextIndex` is bumped. -/
theorem runTurn_resp_spec (isSilent : String → Bool) (oracle : String → Option String)
    (n : Nat) (conv : Conversation) (reg : AgentRegistration) (tx : String)
    (ho : oracle reg.accountId = some tx)
    (hr : respondedOf isSilent (oracle reg.accountId) = true) :
    (runTurn isSilent oracle n conv reg).1.watermarks
      = aset (aset conv.watermarks reg.accountId (tailIndex conv)) reg.accountId
          conv.nextIndex ∧
    tailIndex (runTurn isSilent oracle n conv reg).1 = conv.nextIndex ∧
    (runTurn isSilent oracle n conv reg).1.messages = conv.messages ++
      [{ agentId := reg.accountId, content := tx, index := conv.nextIndex }] ∧
    (runTurn isSilent oracle n conv reg).1.nextIndex = conv.nextIndex + 1 := by
  rw [ho] at hr
  refine ⟨?_, ?_, ?_, ?_⟩ <;>
    simp only [runTurn, ho, hr, if_true, tailIndex_mk_concat]

/-- Shape of the conversation after a non-responded turn: only the
pre-invoke watermark update to the old tail happens. -/
theorem runTurn_noresp_spec (isSilent : String → Bool) (oracle : String → Option String)
    (n : Nat) (conv : Conversation) (reg : AgentRegistration)
    (hr : respondedOf isSilent (oracle reg.accountId) = false) :
    (runTurn isSilent oracle n conv reg).1.watermarks
      = aset conv.watermarks reg.accountId (tailIndex conv) ∧
    tailIndex (runTurn isSilent oracle n conv reg).1 = tailIndex conv ∧
    (runTurn isSilent oracle n conv reg).1.messages = conv.messages ∧
    (runTurn isSilent oracle n conv reg).1.nextIndex = conv.nextIndex := by
  refine ⟨?_, ?_, ?_, ?_⟩ <;>
    simp only [runTurn, hr, Bool.false_eq_true, if_false, tailIndex_mk_same]

theorem convInv_runTurn (isSilent : String → Bool) (oracle : String → Option String)
    (n : Nat) (conv : Conversation) (reg : AgentRegistration) (h : convInv conv) :
    convInv (runTurn isSilent oracle n conv reg).1 := by
  obtain ⟨h1, h2, h3⟩ := h
  by_cases hr : respondedOf isSilent (oracle reg.accountId) = true
  · cases ho : oracle reg.accountId with
    | none => rw [ho] at hr; simp [respondedOf] at hr
    | some tx =>
      obtain ⟨hw, ht, hm, hn⟩ := runTurn_resp_spec isSilent oracle n conv reg tx ho hr
      refine ⟨?_, ?_, ?_⟩
      · intro p hp
        rw [hw] at hp
        rw [ht]
        rcases mem_aset _ _ _ _ hp with hp1 | hp1
        · subst hp1
          exact le_refl _
        · rcases mem_aset _ _ _ _ hp1 with hp2 | hp2
          · subst hp2
            show tailIndex conv ≤ conv.nextIndex
            omega
          · have hle := h1 p hp2
            omega
      · rw [ht, hn]
        omega
      · rw [ht]
        omega
  · have hr2 : respondedOf isSilent (oracle reg.accountId) = false := by simpa using hr
    obtain ⟨hw, ht, hm, hn⟩ := runTurn_noresp_spec isSilent oracle n conv reg hr2
    refine ⟨?_, ?_, ?_⟩
    · intro p hp
      rw [hw] at hp
      rw [ht]
      rcases mem_aset _ _ _ _ hp with hp1 | hp1
      · subst hp1
        exact le_refl _
      · exact h1 p hp1
    · rw [ht, hn]
      exact h2
    · rw [ht]
      exact h3

theorem wm_mono_runTurn (isSilent : String → Bool) (oracle : String → Option String)
    (n : Nat) (conv : Conversation) (reg : AgentRegistration) (h : convInv conv)
    (b : String) :
    wmLookup conv b ≤ wmLookup (runTurn isSilent oracle n conv reg).1 b := by
  have htail := wmLookup_le_tail conv h b
  obtain ⟨-, h2, -⟩ := h
  by_cases hr : respondedOf isSilent (oracle reg.accountId) = true
  · cases ho : oracle reg.accountId with
    | none => rw [ho] at hr; simp [respondedOf] at hr
    | some tx =>
      obtain ⟨hw, ht, -, -⟩ := runTurn_resp_spec isSilent oracle n conv reg tx ho hr
      rw [wmLookup_eq (runTurn isSilent oracle n conv reg).1, hw]
      by_cases hb : b = reg.accountId
      · subst hb
        rw [alookup_aset_self]
        simp only [Option.getD_some]
        omega
      · rw [alookup_aset_ne _ _ _ _ hb, alookup_aset_ne _ _ _ _ hb]
        rw [← wmLookup_eq]
  · have hr2 : respondedOf isSilent (oracle reg.accountId) = false := by simpa using hr
    obtain ⟨hw, ht, -, -⟩ := runTurn_noresp_spec isSilent oracle n conv reg hr2
    rw [wmLookup_eq (runTurn isSilent oracle n conv reg).1, hw]
    by_cases hb : b = reg.accountId
    · subst hb
      rw [alookup_aset_self]
      simpa using htail
    · rw [alookup_aset_ne _ _ _ _ hb]
      rw [← wmLookup_eq]

theorem wm_tail_runTurn (isSilent : String → Bool) (oracle : String → Option String)
    (n : Nat) (conv : Conversation) (reg : AgentRegistration) :
    wmLookup (runTurn isSilent oracle n conv reg).1 reg.accountId
      = tailIndex (runTurn isSilent oracle n conv reg).1 := by
  by_cases hr : respondedOf isSilent (oracle reg.accountId) = true
  · cases ho : oracle reg.accountId with
    | none => rw [ho] at hr; simp [respondedOf] at hr
    | some tx =>
      obtain ⟨hw, ht, -, -⟩ := runTurn_resp_spec isSilent oracle n conv reg tx ho hr
      rw [wmLookup_eq, hw, alookup_aset_self, ht]
      rfl
  · have hr2 : respondedOf isSilent (oracle reg.accountId) = false := by simpa using hr
    obtain ⟨hw, ht, -, -⟩ := runTurn_noresp_spec isSilent oracle n conv reg hr2
    rw [wmLookup_eq, hw, alookup_aset_self, ht]
    rfl

theorem convInv_wm_runTurns (isSilent : String → Bool) (oracle : String → Option String)
    (roundNo : Nat) :
    ∀ (regs : List AgentRegistration) (conv : Conversation), convInv conv →
      convInv (runTurns isSilent oracle roundNo conv regs).1 ∧
      ∀ b, wmLookup conv b ≤ wmLookup (runTurns isSilent oracle roundNo conv regs).1 b := by
  intro regs
  induction regs with
  | nil =>
    intro conv h
    constructor
    · simpa [runTurns] using h
    · intro b
      simp [runTurns]
  | cons reg rest ih =>
    intro conv h
    by_cases hs : (reg.skipFirstRound && roundNo == 1) = true
    · simp only [runTurns, hs, if_true]
      exact ih conv h
    · simp only [runTurns, hs, if_false, Bool.false_eq_true]
      have hinner := convInv_runTurn isSilent oracle roundNo conv reg h
      obtain ⟨ha, hb⟩ := ih _ hinner
      exact ⟨ha, fun b =>
        le_trans (wm_mono_runTurn isSilent oracle roundNo conv reg h b) (hb b)⟩

/-- C2 (amended): for every agent invoked (not skipped) in a round,
immediately after that agent's own turn `watermarks[a]` equals the maximum
message index then in the log (at the end of the round this can lag behind
the log's maximum when a later agent appended — see the counterexample);
and watermarks never decrease across the rounds of one conversation after
the round-1 reset. -/
theorem fanout_watermark_semantics (isSilent : String → Bool) (rand : Nat → Nat → Nat)
    (oracle : String → Option String) (state : ChannelState) (pending : PendingRound)
    (hproc : state.isProcessing = false)
    (hinv : 1 ≤ state.currentRound → convInv state.conversation) :
    (∀ t ∈ (executeRound isSilent rand oracle state pending).2.2,
      wmLookup t.convAfter t.reg.accountId = tailIndex t.convAfter) ∧
    (1 ≤ state.currentRound → ∀ b,
      wmLookup state.conversation b
        ≤ wmLookup (executeRound isSilent rand oracle state pending).1.conversation b) ∧
    convInv (executeRound isSilent rand oracle state pending).1.conversation := by
  refine ⟨?_, ?_, ?_⟩
  · intro t ht
    obtain ⟨-, -, hafter⟩ :=
      executeRound_turns_spec isSilent rand oracle state pending hproc t ht
    rw [hafter]
    exact wm_tail_runTurn isSilent oracle (state.currentRound + 1) t.convBefore t.reg
  · intro hc b
    obtain ⟨k, hk⟩ : ∃ k, state.currentRound = k + 1 :=
      ⟨state.currentRound - 1, by omega⟩
    have hne : ((k + 1 + 1 : Nat) == 1) = false := by simp
    have hcv : (executeRound isSilent rand oracle state pending).1.conversation
        = (runTurns isSilent oracle (k + 1 + 1) state.conversation
            (orderAgents rand
              (pending.registrations.filter
                (fun reg => hasNewMessages state.conversation reg))
              pending.mentionedBotIds state.previousRoundResponders false)).1 := by
      simp [executeRound, hproc, hk, hne]
    rw [hcv]
    exact ((convInv_wm_runTurns isSilent oracle _ _ _ (hinv hc)).2) b
  · cases hk : state.currentRound with
    | zero =>
      have hcv : (executeRound isSilent rand oracle state pending).1.conversation
          = (runTurns isSilent oracle 1 (initialConv pending)
              (orderAgents rand
                (pending.registrations.filter
                  (fun reg => hasNewMessages (initialConv pending) reg))
                pending.mentionedBotIds state.previousRoundResponders true)).1 := by
        simp [executeRound, hproc, hk]
      rw [hcv]
      exact (convInv_wm_runTurns isSilent oracle 1 _ _ (convInv_initial pending)).1
    | succ k =>
      have hne : ((k + 1 + 1 : Nat) == 1) = false := by simp
      have hcv : (executeRound isSilent rand oracle state pending).1.conversation
          = (runTurns isSilent oracle (k + 1 + 1) state.conversation
              (orderAgents rand
                (pending.registrations.filter
                  (fun reg => hasNewMessages state.conversation reg))
                pending.mentionedBotIds state.previousRoundResponders false)).1 := by
        simp [executeRound, hproc, hk, hne]
      rw [hcv]
      exact (convInv_wm_runTurns isSilent oracle _ _ _ (hinv (by omega))).1

theorem fanout_watermark_semantics_witness :
    (∀ t ∈ (executeRound neverSilent zeroRand sampleOracle sampleState
        samplePending).2.2,
      wmLookup t.convAfter t.reg.accountId = tailIndex t.convAfter) ∧
    (1 ≤ sampleState.currentRound → ∀ b,
      wmLookup sampleState.conversation b
        ≤ wmLookup (executeRound neverSilent zeroRand sampleOracle sampleState
            samplePending).1.conversation b) ∧
    convInv (executeRound neverSilent zeroRand sampleOracle sampleState
      samplePending).1.conversation :=
  fanout_watermark_semantics neverSilent zeroRand sampleOracle sampleState samplePending
    rfl (fun h => absurd h (by decide))

/-- C2 (counterexample): in a first round where both agents respond, agent
`"b"` is present and invoked (its result is not skipped), yet at the end of
the round `watermarks["b"] = 1` while the maximum message index in the log
is `2` — the end-of-round equality claimed for every non-skipped agent
fails. -/
theorem fanout_watermark_round_cex :
    ((executeRound neverSilent zeroRand sampleOracle sampleState samplePending).2.1.map
      (fun r => (r.accountId, r.responded, r.skipped))
      = [("b", true, false), ("a", true, false)]) ∧
    wmLookup (executeRound neverSilent zeroRand sampleOracle sampleState
      samplePending).1.conversation "b" = 1 ∧
    ((executeRound neverSilent zeroRand sampleOracle sampleState
      samplePending).1.conversation.messages.map (fun m => m.index)) = [0, 1, 2] := by
  refine ⟨?_, ?_, ?_⟩ <;> decide

/-! Permutation facts about the Fisher–Yates shuffle, and ordering facts
about `orderAgents`. -/

theorem getElem_set_perm {α : Type} : ∀ (t : List α) (i : Nat) (x : α)
    (h : i < t.length), (t[i] :: t.set i x).Perm (x :: t)
  | y :: t2, 0, x, _ => List.Perm.swap x y t2
  | y :: t2, k + 1, x, h => by
    have hk : k < t2.length := by simpa using h
    show ((y :: t2)[k + 1] :: y :: t2.set k x).Perm (x :: y :: t2)
    rw [List.getElem_cons_succ]
    refine List.Perm.trans (List.Perm.swap _ _ _) ?_
    refine List.Perm.trans (List.Perm.cons y (getElem_set_perm t2 k x hk)) ?_
    exact List.Perm.swap _ _ _

theorem swapList_perm {α : Type} (l : List α) (i j : Nat) :
    (swapList l i j).Perm l := by
  rcases hi : l[i]? with _ | a
  · simp [swapList, hi]
  · rcases hj : l[j]? with _ | b
    · simp [swapList, hi, hj]
    · simp only [swapList, hi, hj]
      obtain ⟨hilt, hieq⟩ := List.getElem?_eq_some_iff.mp hi
      obtain ⟨hjlt, hjeq⟩ := List.getElem?_eq_some_iff.mp hj
      have hjlt2 : j < (l.set i b).length := by simpa using hjlt
      have hset : (l.set i b)[j] = b := by
        by_cases hij : i = j
        · subst hij
          simp
        · rw [List.getElem_set_ne hij]
          exact hjeq
      have h1 : (b :: (l.set i b).set j a).Perm (a :: l.set i b) := by
        have hp := getElem_set_perm (l.set i b) j a hjlt2
        rwa [hset] at hp
      have h2 : (a :: l.set i b).Perm (b :: l) := by
        have hp := getElem_set_perm l i b hilt
        rwa [hieq] at hp
      exact ((h1.trans h2).cons_inv)

theorem shuffleFrom_perm {α : Type} (rand : Nat → Nat) :
    ∀ (i : Nat) (l : List α), (shuffleFrom rand i l).Perm l
  | 0, l => List.Perm.refl l
  | i + 1, l =>
    (shuffleFrom_perm rand i _).trans (swapList_perm l (i + 1) (rand (i + 1) % (i + 2)))

theorem shuffleArray_perm {α : Type} (rand : Nat → Nat) (l : List α) :
    (shuffleArray rand l).Perm l :=
  shuffleFrom_perm rand (l.length - 1) l

/-- Round-1 `orderAgents` splits into the stable-sorted mentioned agents
followed by a permutation (the shuffle) of the non-mentioned ones. -/
theorem orderAgents_first_round (rand : Nat → Nat → Nat)
    (registrations : List AgentRegistration) (mids : List String)
    (prev : List String) :
    ∃ rs, orderAgents rand registrations mids prev true
      = List.insertionSort
          (fun a b => jsIndexOf mids a.botUserId ≤ jsIndexOf mids b.botUserId)
          (registrations.filter (fun reg => mids.contains reg.botUserId)) ++ rs ∧
      rs.Perm (registrations.filter (fun reg => !(mids.contains reg.botUserId))) :=
  ⟨shuffleArray (rand 0) (registrations.filter (fun reg => !(mids.contains reg.botUserId))),
   rfl, shuffleArray_perm _ _⟩

theorem sorted_mentioned (mids : List String) (l : List AgentRegistration) :
    (List.insertionSort
      (fun a b => jsIndexOf mids a.botUserId ≤ jsIndexOf mids b.botUserId) l).Pairwise
      (fun a b => jsIndexOf mids a.botUserId ≤ jsIndexOf mids b.botUserId) := by
  haveI : IsTotal AgentRegistration
      (fun a b => jsIndexOf mids a.botUserId ≤ jsIndexOf mids b.botUserId) :=
    ⟨fun a b => Int.le_total _ _⟩
  haveI : IsTrans AgentRegistration
      (fun a b => jsIndexOf mids a.botUserId ≤ jsIndexOf mids b.botUserId) :=
    ⟨fun _ _ _ h1 h2 => le_trans h1 h2⟩
  exact List.sorted_insertionSort _ l

/-- Pairwise mention-ordering across the whole round-1 agent order:
no non-mentioned agent precedes a mentioned one, and mentioned agents are
ordered by their position in `mentionedBotIds`. -/
theorem orderAgents_pairwise (rand : Nat → Nat → Nat)
    (regs : List AgentRegistration) (mids : List String) (prev : List String) :
    List.Pairwise (fun a b : AgentRegistration =>
      (mids.contains b.botUserId = true → mids.contains a.botUserId = true) ∧
      (mids.contains a.botUserId = true → mids.contains b.botUserId = true →
        jsIndexOf mids a.botUserId ≤ jsIndexOf mids b.botUserId))
      (orderAgents rand regs mids prev true) := by
  obtain ⟨rs, heq, hperm⟩ := orderAgents_first_round rand regs mids prev
  rw [heq, List.pairwise_append]
  have hmem_ms : ∀ a : AgentRegistration,
      a ∈ List.insertionSort
        (fun a b => jsIndexOf mids a.botUserId ≤ jsIndexOf mids b.botUserId)
        (regs.filter (fun reg => mids.contains reg.botUserId)) →
      mids.contains a.botUserId = true := by
    intro a ha
    rw [List.mem_insertionSort, List.mem_filter] at ha
    exact ha.2
  have hmem_rs : ∀ b : AgentRegistration, b ∈ rs →
      mids.contains b.botUserId = false := by
    intro b hb
    have := hperm.mem_iff.mp hb
    rw [List.mem_filter] at this
    simpa using this.2
  refine ⟨?_, ?_, ?_⟩
  · refine (sorted_mentioned mids _).imp_of_mem ?_
    intro a b ha hb hr
    exact ⟨fun _ => hmem_ms a ha, fun _ _ => hr⟩
  · refine List.pairwise_of_forall_mem_list ?_
    intro a ha b hb
    refine ⟨fun h2 => ?_, fun _ h2 => ?_⟩
    · rw [hmem_rs b hb] at h2
      cases h2
    · rw [hmem_rs b hb] at h2
      cases h2
  · intro a ha b hb
    refine ⟨fun h2 => ?_, fun _ h2 => ?_⟩
    · rw [hmem_rs b hb] at h2
      cases h2
    · rw [hmem_rs b hb] at h2
      cases h2

/-- The registrations of the turn trace form a sublist of the ordered
agent list (skipped trigger agents are dropped, order preserved). -/
theorem runTurns_reg_sublist (isSilent : String → Bool) (oracle : String → Option String)
    (roundNo : Nat) :
    ∀ (regs : List AgentRegistration) (conv : Conversation),
      ((runTurns isSilent oracle roundNo conv regs).2.2.map
        (fun t => t.reg)).Sublist regs := by
  intro regs
  induction regs with
  | nil =>
    intro conv
    simp [runTurns]
  | cons reg rest ih =>
    intro conv
    by_cases hs : (reg.skipFirstRound && roundNo == 1) = true
    · simp only [runTurns, hs, if_true]
      exact (ih conv).cons _
    · simp only [runTurns, hs, if_false, Bool.false_eq_true, List.map_cons,
        runTurn_rec_reg]
      exact (ih _).cons₂ reg

/-- C6: in round 1 every agent whose `botUserId` appears in
`mentionedBotIds` is invoked before every non-mentioned agent, mentioned
agents are invoked in the order given by their positions in
`mentionedBotIds`, and the agent order is the stable mention-sort of the
mentioned agents followed by a permutation (the shuffle) of the
non-mentioned remainder. -/
theorem fanout_first_round_order (isSilent : String → Bool) (rand : Nat → Nat → Nat)
    (oracle : String → Option String) (state : ChannelState) (pending : PendingRound)
    (hproc : state.isProcessing = false) (hc : state.currentRound = 0) :
    List.Pairwise (fun t1 t2 : TurnRecord =>
      (pending.mentionedBotIds.contains t2.reg.botUserId = true →
        pending.mentionedBotIds.contains t1.reg.botUserId = true) ∧
      (pending.mentionedBotIds.contains t1.reg.botUserId = true →
        pending.mentionedBotIds.contains t2.reg.botUserId = true →
        jsIndexOf pending.mentionedBotIds t1.reg.botUserId
          ≤ jsIndexOf pending.mentionedBotIds t2.reg.botUserId))
      (executeRound isSilent rand oracle state pending).2.2 ∧
    (∃ rs, orderAgents rand
        (pending.registrations.filter
          (fun reg => hasNewMessages (initialConv pending) reg))
        pending.mentionedBotIds state.previousRoundResponders true
      = List.insertionSort
          (fun a b => jsIndexOf pending.mentionedBotIds a.botUserId
            ≤ jsIndexOf pending.mentionedBotIds b.botUserId)
          ((pending.registrations.filter
            (fun reg => hasNewMessages (initialConv pending) reg)).filter
            (fun reg => pending.mentionedBotIds.contains reg.botUserId)) ++ rs ∧
      rs.Perm ((pending.registrations.filter
          (fun reg => hasNewMessages (initialConv pending) reg)).filter
          (fun reg => !(pending.mentionedBotIds.contains reg.botUserId)))) := by
  constructor
  · have hturns : (executeRound isSilent rand oracle state pending).2.2
        = (runTurns isSilent oracle 1 (initialConv pending)
            (orderAgents rand
              (pending.registrations.filter
                (fun reg => hasNewMessages (initialConv pending) reg))
              pending.mentionedBotIds state.previousRoundResponders true)).2.2 := by
      simp [executeRound, hproc, hc]
    rw [hturns]
    have hsub := runTurns_reg_sublist isSilent oracle 1
      (orderAgents rand
        (pending.registrations.filter
          (fun reg => hasNewMessages (initialConv pending) reg))
        pending.mentionedBotIds state.previousRoundResponders true)
      (initialConv pending)
    have hpw := orderAgents_pairwise rand
      (pending.registrations.filter
        (fun reg => hasNewMessages (initialConv pending) reg))
      pending.mentionedBotIds state.previousRoundResponders
    have hpw2 := hpw.sublist hsub
    rwa [List.pairwise_map] at hpw2
  · exact orderAgents_first_round rand _ _ _

theorem fanout_first_round_order_witness :
    List.Pairwise (fun t1 t2 : TurnRecord =>
      (samplePendingMentions.mentionedBotIds.contains t2.reg.botUserId = true →
        samplePendingMentions.mentionedBotIds.contains t1.reg.botUserId = true) ∧
      (samplePendingMentions.mentionedBotIds.contains t1.reg.botUserId = true →
        samplePendingMentions.mentionedBotIds.contains t2.reg.botUserId = true →
        jsIndexOf samplePendingMentions.mentionedBotIds t1.reg.botUserId
          ≤ jsIndexOf samplePendingMentions.mentionedBotIds t2.reg.botUserId))
      (executeRound neverSilent zeroRand sampleOracle sampleState
        samplePendingMentions).2.2 ∧
    (∃ rs, orderAgents zeroRand
        (samplePendingMentions.registrations.filter
          (fun reg => hasNewMessages (initialConv samplePendingMentions) reg))
        samplePendingMentions.mentionedBotIds sampleState.previousRoundResponders true
      = List.insertionSort
          (fun a b => jsIndexOf samplePendingMentions.mentionedBotIds a.botUserId
            ≤ jsIndexOf samplePendingMentions.mentionedBotIds b.botUserId)
          ((samplePendingMentions.registrations.filter
            (fun reg => hasNewMessages (initialConv samplePendingMentions) reg)).filter
            (fun reg => samplePendingMentions.mentionedBotIds.contains reg.botUserId))
          ++ rs ∧
      rs.Perm ((samplePendingMentions.registrations.filter
          (fun reg => hasNewMessages (initialConv samplePendingMentions) reg)).filter
          (fun reg => !(samplePendingMentions.mentionedBotIds.contains reg.botUserId)))) :=
  fanout_first_round_order neverSilent zeroRand sampleOracle sampleState
    samplePendingMentions rfl rfl

/-! Unfolding lemmas for the three exits of `runConversation`, and the
termination/reset law. -/

theorem runConversation_unfold_chain (isSilent : String → Bool)
    (rands : Nat → Nat → Nat → Nat) (oracles : Nat → String → Option String)
    (state : ChannelState) (pending : PendingRound)
    (hany : ((executeRound isSilent (rands (state.currentRound + 1))
        (oracles (state.currentRound + 1)) state pending).2.1.any
        (fun r => r.responded)) = true)
    (hlt : (executeRound isSilent (rands (state.currentRound + 1))
        (oracles (state.currentRound + 1)) state pending).1.currentRound
        < (executeRound isSilent (rands (state.currentRound + 1))
        (oracles (state.currentRound + 1)) state pending).1.roundLimit)
    (hnew : (pending.registrations.any (fun reg => hasNewMessages
        (executeRound isSilent (rands (state.currentRound + 1))
          (oracles (state.currentRound + 1)) state pending).1.conversation reg)) = true) :
    runConversation isSilent rands oracles state pending
      = ((runConversation isSilent rands oracles
            (executeRound isSilent (rands (state.currentRound + 1))
              (oracles (state.currentRound + 1)) state pending).1
            (chainedPendingOf pending)).1,
         { roundNo := state.currentRound + 1,
           results := (executeRound isSilent (rands (state.currentRound + 1))
              (oracles (state.currentRound + 1)) state pending).2.1,
           turns := (executeRound isSilent (rands (state.currentRound + 1))
              (oracles (state.currentRound + 1)) state pending).2.2 }
          :: (runConversation isSilent rands oracles
            (executeRound isSilent (rands (state.currentRound + 1))
              (oracles (state.currentRound + 1)) state pending).1
            (chainedPendingOf pending)).2) := by
  rw [runConversation]
  simp only [hany, hlt, hnew, and_true, if_true, dite_true, true_and]

theorem runConversation_unfold_nonew (isSilent : String → Bool)
    (rands : Nat → Nat → Nat → Nat) (oracles : Nat → String → Option String)
    (state : ChannelState) (pending : PendingRound)
    (hany : ((executeRound isSilent (rands (state.currentRound + 1))
        (oracles (state.currentRound + 1)) state pending).2.1.any
        (fun r => r.responded)) = true)
    (hlt : (executeRound isSilent (rands (state.currentRound + 1))
        (oracles (state.currentRound + 1)) state pending).1.currentRound
        < (executeRound isSilent (rands (state.currentRound + 1))
        (oracles (state.currentRound + 1)) state pending).1.roundLimit)
    (hnew : (pending.registrations.any (fun reg => hasNewMessages
        (executeRound isSilent (rands (state.currentRound + 1))
          (oracles (state.currentRound + 1)) state pending).1.conversation reg)) = false) :
    runConversation isSilent rands oracles state pending
      = (endConversation (executeRound isSilent (rands (state.currentRound + 1))
            (oracles (state.currentRound + 1)) state pending).1,
         [{ roundNo := state.currentRound + 1,
            results := (executeRound isSilent (rands (state.currentRound + 1))
               (oracles (state.currentRound + 1)) state pending).2.1,
            turns := (executeRound isSilent (rands (state.currentRound + 1))
               (oracles (state.currentRound + 1)) state pending).2.2 }]) := by
  rw [runConversation]
  simp only [hany, hlt, hnew, and_true, if_true, dite_true, true_and,
    Bool.false_eq_true, if_false]

theorem runConversation_unfold_end (isSilent : String → Bool)
    (rands : Nat → Nat → Nat → Nat) (oracles : Nat → String → Option String)
    (state : ChannelState) (pending : PendingRound)
    (hcon : ¬(((executeRound isSilent (rands (state.currentRound + 1))
        (oracles (state.currentRound + 1)) state pending).2.1.any
        (fun r => r.responded)) = true ∧
      (executeRound isSilent (rands (state.currentRound + 1))
        (oracles (state.currentRound + 1)) state pending).1.currentRound
        < (executeRound isSilent (rands (state.currentRound + 1))
        (oracles (state.currentRound + 1)) state pending).1.roundLimit)) :
    runConversation isSilent rands oracles state pending
      = (endConversation (executeRound isSilent (rands (state.currentRound + 1))
            (oracles (state.currentRound + 1)) state pending).1,
         [{ roundNo := state.currentRound + 1,
            results := (executeRound isSilent (rands (state.currentRound + 1))
               (oracles (state.currentRound + 1)) state pending).2.1,
            turns := (executeRound isSilent (rands (state.currentRound + 1))
               (oracles (state.currentRound + 1)) state pending).2.2 }]) := by
  rw [runConversation]
  simp only [hcon, dite_false]

/-- Strong-induction core for the termination law, carrying the head round
number of the trace. -/
theorem runConversation_terminates_aux (isSilent : String → Bool)
    (rands : Nat → Nat → Nat → Nat) (oracles : Nat → String → Option String) :
    ∀ (n : Nat) (state : ChannelState) (pending : PendingRound),
      state.roundLimit - state.currentRound ≤ n →
      state.currentRound < state.roundLimit →
      (runConversation isSilent rands oracles state pending).1.currentRound = 0 ∧
      (runConversation isSilent rands oracles state pending).1.previousRoundResponders
        = [] ∧
      (∀ t ∈ (runConversation isSilent rands oracles state pending).2,
        t.roundNo ≤ state.roundLimit) ∧
      List.Chain' (fun t1 _ => t1.roundNo < state.roundLimit ∧
        t1.results.any (fun r => r.responded) = true)
        (runConversation isSilent rands oracles state pending).2 ∧
      (∃ hd tl, (runConversation isSilent rands oracles state pending).2 = hd :: tl ∧
        hd.roundNo = state.currentRound + 1) := by
  intro n
  induction n with
  | zero =>
    intro state pending hn hlim
    omega
  | succ n ih =>
    intro state pending hn hlim
    by_cases hany : ((executeRound isSilent (rands (state.currentRound + 1))
        (oracles (state.currentRound + 1)) state pending).2.1.any
        (fun r => r.responded)) = true
    · cases hp : state.isProcessing with
      | true =>
        exfalso
        have hg : executeRound isSilent (rands (state.currentRound + 1))
            (oracles (state.currentRound + 1)) state pending = (state, [], []) := by
          simp [executeRound, hp]
        rw [hg] at hany
        simp at hany
      | false =>
        have hcr : (executeRound isSilent (rands (state.currentRound + 1))
            (oracles (state.currentRound + 1)) state pending).1.currentRound
            = state.currentRound + 1 := by
          simp [executeRound, hp]
        have hrl : (executeRound isSilent (rands (state.currentRound + 1))
            (oracles (state.currentRound + 1)) state pending).1.roundLimit
            = state.roundLimit := by
          simp [executeRound, hp]
        by_cases hlt2 : (executeRound isSilent (rands (state.currentRound + 1))
            (oracles (state.currentRound + 1)) state pending).1.currentRound
            < (executeRound isSilent (rands (state.currentRound + 1))
            (oracles (state.currentRound + 1)) state pending).1.roundLimit
        · by_cases hnew : (pending.registrations.any (fun reg => hasNewMessages
              (executeRound isSilent (rands (state.currentRound + 1))
                (oracles (state.currentRound + 1)) state pending).1.conversation reg))
              = true
          · rw [runConversation_unfold_chain isSilent rands oracles state pending
              hany hlt2 hnew]
            have hmeas : (executeRound isSilent (rands (state.currentRound + 1))
                (oracles (state.currentRound + 1)) state pending).1.roundLimit
                - (executeRound isSilent (rands (state.currentRound + 1))
                  (oracles (state.currentRound + 1)) state pending).1.currentRound
                ≤ n := by
              rw [hcr, hrl]
              omega
            obtain ⟨ih1, ih2, ih3, ih4, hd, tl, htl, -⟩ :=
              ih _ (chainedPendingOf pending) hmeas hlt2
            rw [hrl] at ih3 ih4
            refine ⟨ih1, ih2, ?_, ?_, ?_⟩
            · intro t ht
              rcases List.mem_cons.mp ht with h1 | h1
              · subst h1
                show state.currentRound + 1 ≤ state.roundLimit
                omega
              · exact ih3 t h1
            · rw [List.chain'_cons']
              refine ⟨?_, ih4⟩
              intro y hy
              rw [hcr, hrl] at hlt2
              exact ⟨hlt2, hany⟩
            · exact ⟨_, _, rfl, rfl⟩
          · have hnew2 : (pending.registrations.any (fun reg => hasNewMessages
                (executeRound isSilent (rands (state.currentRound + 1))
                  (oracles (state.currentRound + 1)) state pending).1.conversation reg))
                = false := by
              simpa using hnew
            rw [runConversation_unfold_nonew isSilent rands oracles state pending
              hany hlt2 hnew2]
            refine ⟨rfl, rfl, ?_, ?_, ⟨_, [], rfl, rfl⟩⟩
            · intro t ht
              rcases List.mem_cons.mp ht with h1 | h1
              · subst h1
                show state.currentRound + 1 ≤ state.roundLimit
                omega
              · simp at h1
            · simp [List.chain'_singleton]
        · rw [runConversation_unfold_end isSilent rands oracles state pending
            (fun hcon => hlt2 hcon.2)]
          refine ⟨rfl, rfl, ?_, ?_, ⟨_, [], rfl, rfl⟩⟩
          · intro t ht
            rcases List.mem_cons.mp ht with h1 | h1
            · subst h1
              show state.currentRound + 1 ≤ state.roundLimit
              omega
            · simp at h1
          · simp [List.chain'_singleton]
    · rw [runConversation_unfold_end isSilent rands oracles state pending
        (fun hcon => hany hcon.1)]
      refine ⟨rfl, rfl, ?_, ?_, ⟨_, [], rfl, rfl⟩⟩
      · intro t ht
        rcases List.mem_cons.mp ht with h1 | h1
        · subst h1
          show state.currentRound + 1 ≤ state.roundLimit
          omega
        · simp at h1
      · simp [List.chain'_singleton]

/-- C1: for every channel, a conversation always terminates: chained rounds
are launched only when some agent responded and `currentRound < roundLimit`
(every executed round's number stays ≤ `roundLimit`), and on every
termination path — round limit reached, no agent responded, or no agent
has unseen messages — `currentRound` is reset to 0 and
`previousRoundResponders` is emptied. -/
theorem fanout_conversation_terminates (isSilent : String → Bool)
    (rands : Nat → Nat → Nat → Nat) (oracles : Nat → String → Option String)
    (state : ChannelState) (pending : PendingRound)
    (h : state.currentRound < state.roundLimit) :
    (runConversation isSilent rands oracles state pending).1.currentRound = 0 ∧
    (runConversation isSilent rands oracles state pending).1.previousRoundResponders
      = [] ∧
    (∀ t ∈ (runConversation isSilent rands oracles state pending).2,
      t.roundNo ≤ state.roundLimit) ∧
    List.Chain' (fun t1 _ => t1.roundNo < state.roundLimit ∧
      t1.results.any (fun r => r.responded) = true)
      (runConversation isSilent rands oracles state pending).2 := by
  obtain ⟨h1, h2, h3, h4, -⟩ := runConversation_terminates_aux isSilent rands oracles
    (state.roundLimit - state.currentRound) state pending (le_refl _) h
  exact ⟨h1, h2, h3, h4⟩

theorem fanout_conversation_terminates_witness :
    (runConversation sampleIsSilent (fun _ _ _ => 0) sampleOracles sampleState
      samplePending).1.currentRound = 0 ∧
    (runConversation sampleIsSilent (fun _ _ _ => 0) sampleOracles sampleState
      samplePending).1.previousRoundResponders = [] ∧
    (∀ t ∈ (runConversation sampleIsSilent (fun _ _ _ => 0) sampleOracles sampleState
      samplePending).2, t.roundNo ≤ sampleState.roundLimit) ∧
    List.Chain' (fun t1 _ => t1.roundNo < sampleState.roundLimit ∧
      t1.results.any (fun r => r.responded) = true)
      (runConversation sampleIsSilent (fun _ _ _ => 0) sampleOracles sampleState
        samplePending).2 :=
  fanout_conversation_terminates sampleIsSilent (fun _ _ _ => 0) sampleOracles
    sampleState samplePending (by decide)

end Fanout
